import Mathlib

/-!
# AWS SQS notification channel (`pkg/services/awssqs.go`)

A shallow embedding of the SQS channel of the notifications engine:

* the message-attribute templater (`AwsSqsNotification.GetTemplater`,
  `AwsSqsNotification.parseMessageAttributes`);
* the delivery routine (`awsSqservice.Send`).

Go maps are reference values, so the attribute maps live in an explicit heap and the
structures hold references to them.  The `text/template` package, the AWS SDK and the
process environment are external to the repository and enter as parameters.
-/

namespace AwsSqs

/-! ## Go values -/

/-- A Go `error` value, identified by its message. -/
structure GoError where
  msg : String
  deriving DecidableEq, Repr

deriving instance DecidableEq for Except

/-- The contents of a Go `map[string]string`: an association list without duplicate keys. -/
abbrev GoMap := List (String × String)

/-- The keys of a map. -/
def GoMap.keys (m : GoMap) : List String := m.map Prod.fst

/-- The map invariant: no key occurs twice. -/
def GoMap.WF (m : GoMap) : Prop := m.keys.Nodup

instance GoMap.decidableWF (m : GoMap) : Decidable m.WF :=
  inferInstanceAs (Decidable m.keys.Nodup)

/-- Go `v, ok := m[k]`. -/
def GoMap.index : GoMap → String → Option String
  | [], _ => none
  | (k', v) :: rest, k => if k' = k then some v else GoMap.index rest k

/-- Go `m[k] = v`: replaces the value of an existing key, adds the key otherwise. -/
def GoMap.assign : GoMap → String → String → GoMap
  | [], k, v => [(k, v)]
  | (k', v') :: rest, k, v =>
    if k' = k then (k, v) :: rest else (k', v') :: GoMap.assign rest k v

/-- Go `len(m)`. -/
def GoMap.len (m : GoMap) : Nat := m.length

/-- A reference to a map object. -/
abbrev MapRef := Nat

/-- The heap of map objects. -/
abbrev Heap := MapRef → GoMap

/-- Writing `m[k] = v` through the reference `r`. -/
def Heap.assign (h : Heap) (r : MapRef) (k v : String) : Heap :=
  fun r' => if r' = r then (h r).assign k v else h r'

/-- An order in which `range` may traverse the map `m`: each key exactly once.  The
language leaves the order unspecified, so it is an input of every loop below. -/
def RangeOrder (m : GoMap) (order : List String) : Prop := order.Perm m.keys

/-! ## The `text/template` interface -/

/-- The two operations of `text/template` the channel uses, for function tables `F`,
variable bindings `V` and parsed templates `T`.
`Parse name f text` is `texttemplate.New(name).Funcs(f).Parse(text)`;
`Execute tmpl vars` is `tmpl.Execute(&buf, vars)` followed by `buf.String()`.
`F` is the type of the function tables `Funcs` accepts. -/
structure TextTemplate (F V T : Type) where
  Parse : String → F → String → Except GoError T
  Execute : T → V → Except GoError String

/-! ## Data model -/

/-- Go `AwsSqsNotification`; a nil map is `none`. -/
structure AwsSqsNotification where
  MessageAttributes : Option MapRef
  deriving DecidableEq, Repr

/-- The fields of `Notification` this channel reads or writes; a nil `AwsSqs` pointer is
`none`. -/
structure Notification where
  Message : String
  AwsSqs : Option AwsSqsNotification
  deriving DecidableEq, Repr

/-- The entries of `n.MessageAttributes`; a nil map has none. -/
def AwsSqsNotification.entries (n : AwsSqsNotification) (h : Heap) : GoMap :=
  match n.MessageAttributes with
  | none => []
  | some r => h r

/-- The entries of `notification.AwsSqs.MessageAttributes`. -/
def Notification.attributes (notification : Notification) (h : Heap) : GoMap :=
  match notification.AwsSqs with
  | none => []
  | some a => a.entries h

/-- Go `len(n.MessageAttributes)`, which is `0` for a nil map. -/
def AwsSqsNotification.lenMessageAttributes (n : AwsSqsNotification) (h : Heap) : Nat :=
  match n.MessageAttributes with
  | none => 0
  | some r => (h r).len

/-! ## The templater -/

/-- The body of `for k, v := range n.MessageAttributes` in `parseMessageAttributes`, run
over the keys in the order the runtime produces them, on the map behind `r`.
Returns the heap after the loop and the error returned, if any. -/
def parseMessageAttributes.loop {F V T : Type} (tt : TextTemplate F V T)
    (name : String) (f : F) (vars : V) (r : MapRef) :
    List String → Heap → Heap × Option GoError
  | [], h => (h, none)
  | k :: ks, h =>
    match (h r).index k with
    | none => parseMessageAttributes.loop tt name f vars r ks h
    | some v =>
      match tt.Parse name f v with
      | .error _ => parseMessageAttributes.loop tt name f vars r ks h
      | .ok tmpl =>
        match tt.Execute tmpl vars with
        | .error err => (h, some err)
        | .ok val =>
          if val ≠ "" then
            parseMessageAttributes.loop tt name f vars r ks (h.assign r k val)
          else
            parseMessageAttributes.loop tt name f vars r ks h

/-- Go `(n *AwsSqsNotification) parseMessageAttributes(name, f, vars)`. -/
def parseMessageAttributes {F V T : Type} (tt : TextTemplate F V T)
    (n : AwsSqsNotification) (name : String) (f : F) (vars : V)
    (order : List String) (h : Heap) : Heap × Option GoError :=
  match n.MessageAttributes with
  | none => (h, none)
  | some r => parseMessageAttributes.loop tt name f vars r order h

/-- Go `Templater`: a rendering step on a notification.  It also receives the heap and
the traversal order of the attribute map, and returns the heap, the notification and the
error. -/
abbrev Templater (V : Type) :=
  List String → Heap → Notification → V → Heap × Notification × Option GoError

/-- Go `(n *AwsSqsNotification) GetTemplater(name, f)`.  The closure reads
`n.MessageAttributes` when it runs; nothing in it assigns that field of `n`, so the
receiver is captured by value. -/
def GetTemplater {F V T : Type} (tt : TextTemplate F V T)
    (n : AwsSqsNotification) (name : String) (f : F) : Templater V × Option GoError :=
  (fun order h notification vars =>
    let notification : Notification :=
      if notification.AwsSqs = none then
        { notification with AwsSqs := some { MessageAttributes := none } }
      else notification
    if n.lenMessageAttributes h > 0 then
      let target : AwsSqsNotification := { MessageAttributes := n.MessageAttributes }
      let notification : Notification := { notification with AwsSqs := some target }
      match parseMessageAttributes tt target name f vars order h with
      | (h', some err) => (h', notification, some err)
      | (h', none) => (h', notification, none)
    else
      (h, notification, none),
   none)

/-! ## A fragment of `text/template`

An instance of the interface, used to run the code on concrete inputs: literal text and
field-chain actions such as `.message`, possibly with blanks around the chain, over
string-valued variables and an empty function table.  Field names are ASCII: a letter or
an underscore, followed by letters, digits and underscores.  Every other action (trim
markers, pipelines, literals, non-ASCII names) is outside the fragment and this instance
rejects it. -/

/-- A node of a parsed template: literal text or a field chain. -/
inductive Fragment.Node where
  | text (s : String)
  | field (chain : List String)
  deriving DecidableEq, Repr

/-- String-valued variable bindings, the `map[string]interface{}` of a templater call. -/
abbrev Fragment.Vars := List (String × String)

/-- A character of a field name. -/
def Fragment.isIdentChar (c : Char) : Bool := c.isAlphanum || c = '_'

/-- A character that may start a field name: a dot followed by a digit starts a number. -/
def Fragment.isIdentStart (c : Char) : Bool := c.isAlpha || c = '_'

/-- A blank inside an action. -/
def Fragment.isSpace (c : Char) : Bool := c = ' ' || c = '\t' || c = '\r' || c = '\n'

/-- The inside of an action without the blanks around it; `acc` holds the characters
read, last first. -/
def Fragment.trim (acc : List Char) : List Char :=
  ((acc.dropWhile Fragment.isSpace).reverse).dropWhile Fragment.isSpace

/-- Splits the inside of an action into the names of a field chain: `.a.b` gives
`[a, b]`.  `cur` is the name being read (`none` before the first dot). -/
def Fragment.chain : List Char → Option (List Char) → Option (List String)
  | [], none => none
  | [], some cur => if cur = [] then none else some [String.mk cur.reverse]
  | c :: cs, none => if c = '.' then Fragment.chain cs (some []) else none
  | c :: cs, some cur =>
    if c = '.' then
      if cur = [] then none
      else (Fragment.chain cs (some [])).map (fun rest => String.mk cur.reverse :: rest)
    else if cur = [] then
      if Fragment.isIdentStart c then Fragment.chain cs (some [c]) else none
    else if Fragment.isIdentChar c then Fragment.chain cs (some (c :: cur))
    else none

/-- The text node for the characters read so far, if any. -/
def Fragment.flush (acc : List Char) : List Fragment.Node :=
  if acc = [] then [] else [Fragment.Node.text (String.mk acc.reverse)]

/-- The scanner: outside an action (`inAction = false`) text runs up to the next
opening delimiter; inside one, the action runs up to the closing delimiter. -/
def Fragment.scan : Bool → List Char → List Char → Except GoError (List Fragment.Node)
  | false, acc, [] => .ok (Fragment.flush acc)
  | true, _, [] => .error { msg := "unclosed action" }
  | false, acc, [c] => .ok (Fragment.flush (c :: acc))
  | true, _, [_] => .error { msg := "unclosed action" }
  | false, acc, c :: d :: rest =>
    if c = '\x7b' ∧ d = '\x7b' then
      match Fragment.scan true [] rest with
      | .error e => .error e
      | .ok nodes => .ok (Fragment.flush acc ++ nodes)
    else Fragment.scan false (c :: acc) (d :: rest)
  | true, acc, c :: d :: rest =>
    if c = '\x7d' ∧ d = '\x7d' then
      match Fragment.chain (Fragment.trim acc) none with
      | none => .error { msg := "unsupported action" }
      | some names =>
        match Fragment.scan false [] rest with
        | .error e => .error e
        | .ok nodes => .ok (Fragment.Node.field names :: nodes)
    else Fragment.scan true (c :: acc) (d :: rest)

/-- The value of a field chain.  A variable prints as its value.  A missing variable is
the invalid value, which every further field of the chain leaves invalid and which prints
as `<no value>`.  A string has no fields, so a longer chain on a variable that is set
fails. -/
def Fragment.evalField (vars : Fragment.Vars) : List String → Except GoError String
  | [] => .error { msg := "empty field chain" }
  | [x] => .ok ((GoMap.index vars x).getD "<no value>")
  | x :: y :: _ =>
    match GoMap.index vars x with
    | none => .ok "<no value>"
    | some _ => .error { msg := "can't evaluate field " ++ y ++ " in type string" }

/-- Executes the nodes in order, appending to the output. -/
def Fragment.run (vars : Fragment.Vars) : List Fragment.Node → Except GoError String
  | [] => .ok ""
  | .text s :: rest =>
    match Fragment.run vars rest with
    | .error e => .error e
    | .ok out => .ok (s ++ out)
  | .field names :: rest =>
    match Fragment.evalField vars names with
    | .error e => .error e
    | .ok v =>
      match Fragment.run vars rest with
      | .error e => .error e
      | .ok out => .ok (v ++ out)

/-- The fragment as an instance of the `text/template` interface. -/
def Fragment.engine : TextTemplate Unit Fragment.Vars (List Fragment.Node) where
  Parse := fun _ _ text => Fragment.scan false [] text.data
  Execute := fun tmpl vars => Fragment.run vars tmpl

/-! ## Channel configuration and SDK requests -/

/-- Go `AwsAccess`. -/
structure AwsAccess where
  Key : String
  Secret : String
  deriving DecidableEq, Repr

/-- Go `AwsSqsOptions` (`AwsAccess` is an embedded field). -/
structure AwsSqsOptions where
  Queue : String
  Account : String
  Region : String
  EndpointUrl : String
  AwsAccess : AwsAccess
  deriving DecidableEq, Repr

/-- The zero value `AwsSqsOptions{}`. -/
def AwsSqsOptions.zero : AwsSqsOptions :=
  { Queue := "", Account := "", Region := "", EndpointUrl := "",
    AwsAccess := { Key := "", Secret := "" } }

/-- Go `awsSqservice`. -/
structure awsSqservice where
  opts : AwsSqsOptions
  deriving DecidableEq, Repr

/-- Go `NewAwsSqsService(opts)`. -/
def NewAwsSqsService (opts : AwsSqsOptions) : awsSqservice := { opts := opts }

/-- The field of `Destination` this channel reads, with the service name. -/
structure Destination where
  Service : String
  Recipient : String
  deriving DecidableEq, Repr

/-- The arguments of `credentials.NewStaticCredentialsProvider(key, secret, session)`. -/
structure StaticCredentialsProvider where
  key : String
  secret : String
  session : String
  deriving DecidableEq, Repr

/-- The fields of `aws.Endpoint` the resolver sets; the zero value has them all empty. -/
structure Endpoint where
  PartitionID : String
  URL : String
  SigningRegion : String
  deriving DecidableEq, Repr

/-- Go `&aws.EndpointNotFoundError{}`. -/
structure EndpointNotFoundError where
  deriving DecidableEq, Repr

/-- The constant `sqs.ServiceID` of the SDK. -/
def sqs.ServiceID : String := "SQS"

/-- The closure `customResolver` of `Send`, as the variables it captures:
`s.opts.EndpointUrl` and `endpointRegion`. -/
structure CustomResolver where
  EndpointUrl : String
  endpointRegion : String
  deriving DecidableEq, Repr

/-- The body of the closure `customResolver`: `func(service, region string, ...)`. -/
def CustomResolver.resolve (c : CustomResolver) (service _region : String) :
    Except EndpointNotFoundError Endpoint :=
  if service = sqs.ServiceID then
    .ok { PartitionID := "aws", URL := c.EndpointUrl, SigningRegion := c.endpointRegion }
  else
    .error {}

/-- The load options `Send` passes to `config.LoadDefaultConfig`. -/
inductive LoadOption where
  | WithCredentialsProvider (p : StaticCredentialsProvider)
  | WithRegion (region : String)
  | WithEndpointResolverWithOptions (resolver : CustomResolver)
  deriving DecidableEq, Repr

/-- Go `sqs.GetQueueUrlInput`; a nil pointer field is `none`. -/
structure GetQueueUrlInput where
  QueueName : Option String
  QueueOwnerAWSAccountId : Option String
  deriving DecidableEq, Repr

/-- Go `sqs.GetQueueUrlOutput`. -/
structure GetQueueUrlOutput where
  QueueUrl : Option String
  deriving DecidableEq, Repr

/-- The fields of `sqs.SendMessageInput`.  `MessageAttributes` is the request's map of
per-message attributes; the zero value of a map field is the nil map, `none`. -/
structure SendMessageInput where
  QueueUrl : Option String
  MessageBody : Option String
  DelaySeconds : Int
  MessageAttributes : Option GoMap
  deriving DecidableEq, Repr

/-- Go `sqs.SendMessageOutput`; `MessageId` is a pointer, nil is `none`. -/
structure SendMessageOutput where
  MessageId : Option String
  deriving DecidableEq, Repr

/-- The AWS SDK as `Send` uses it: loading a configuration, and the two calls of
`SQSSendMessageAPI` on the client built from that configuration. -/
structure SDK (Cfg : Type) where
  LoadDefaultConfig : List LoadOption → Except GoError Cfg
  GetQueueUrl : Cfg → GetQueueUrlInput → Except GoError GetQueueUrlOutput
  SendMessage : Cfg → SendMessageInput → Except GoError SendMessageOutput

/-- What one run of `Send` does, in order. -/
inductive Event where
  | LoadDefaultConfig (options : List LoadOption)
  | GetQueueUrl (input : GetQueueUrlInput)
  | SendMessage (input : SendMessageInput)
  | logError (text : String)
  | logDebug (text : String)
  deriving DecidableEq, Repr

/-- How a run of `Send` ends: it returns an `error` (`none` is nil), `log.Fatalf` logs
its text and terminates the process, or the run panics on the dereference of a nil
pointer. -/
inductive Outcome where
  | returned (err : Option GoError)
  | fatal (text : String)
  | nilDereference
  deriving DecidableEq, Repr

/-- A run of `Send`. -/
structure Run where
  outcome : Outcome
  events : List Event
  deriving DecidableEq, Repr

/-- Lines 43-74 of `Send`: the slice `options`. -/
def Send.options (getenv : String → String) (s : awsSqservice) : List LoadOption :=
  let options : List LoadOption := []
  let options :=
    if s.opts ≠ AwsSqsOptions.zero ∧ s.opts.AwsAccess.Key ≠ "" ∧ s.opts.AwsAccess.Secret ≠ "" then
      options ++ [LoadOption.WithCredentialsProvider
        { key := s.opts.AwsAccess.Key, secret := s.opts.AwsAccess.Secret, session := "default" }]
    else options
  let options :=
    if s.opts.Region ≠ "" then options ++ [LoadOption.WithRegion s.opts.Region] else options
  if s.opts.EndpointUrl ≠ "" then
    let endpointRegion := getenv "AWS_DEFAULT_REGION"
    let endpointRegion := if s.opts.Region ≠ "" then s.opts.Region else endpointRegion
    options ++ [LoadOption.WithEndpointResolverWithOptions
      { EndpointUrl := s.opts.EndpointUrl, endpointRegion := endpointRegion }]
  else options

/-- Lines 85-97 of `Send`: the request `gQInput`. -/
def Send.gQInput (s : awsSqservice) (dest : Destination) : GetQueueUrlInput :=
  let gQInput : GetQueueUrlInput := { QueueName := none, QueueOwnerAWSAccountId := none }
  let gQInput := { gQInput with QueueName := some s.opts.Queue }
  let gQInput :=
    if dest.Recipient ≠ "" then { gQInput with QueueName := some dest.Recipient } else gQInput
  if s.opts.Account ≠ "" then
    { gQInput with QueueOwnerAWSAccountId := some s.opts.Account }
  else gQInput

/-- Lines 107-111 of `Send`: the request `sMInput`. -/
def Send.sMInput (queueURL : Option String) (notification : Notification) :
    SendMessageInput :=
  { QueueUrl := queueURL,
    MessageBody := some notification.Message,
    DelaySeconds := 10,
    MessageAttributes := none }

/-- Go `(s awsSqservice) Send(notification, dest)`, against an SDK `sdk` and a process
environment `getenv`. -/
def Send {Cfg : Type} (sdk : SDK Cfg) (getenv : String → String) (s : awsSqservice)
    (notification : Notification) (dest : Destination) : Run :=
  let options := Send.options getenv s
  match sdk.LoadDefaultConfig options with
  | .error err =>
    { outcome := .fatal ("failed to load configuration, " ++ err.msg),
      events := [.LoadDefaultConfig options] }
  | .ok client =>
    let gQInput := Send.gQInput s dest
    match sdk.GetQueueUrl client gQInput with
    | .error err =>
      { outcome := .returned (some err),
        events := [.LoadDefaultConfig options, .GetQueueUrl gQInput,
                   .logError ("Got an error getting the queue URL: " ++ err.msg)] }
    | .ok result =>
      let queueURL := result.QueueUrl
      let sMInput := Send.sMInput queueURL notification
      match sdk.SendMessage client sMInput with
      | .error err =>
        { outcome := .returned (some err),
          events := [.LoadDefaultConfig options, .GetQueueUrl gQInput, .SendMessage sMInput,
                     .logError ("Got an error sending the message: " ++ err.msg)] }
      | .ok resp =>
        -- line 118 evaluates `*resp.MessageId` as an argument of `log.Debug`
        match resp.MessageId with
        | none =>
          { outcome := .nilDereference,
            events := [.LoadDefaultConfig options, .GetQueueUrl gQInput,
                       .SendMessage sMInput] }
        | some id =>
          { outcome := .returned none,
            events := [.LoadDefaultConfig options, .GetQueueUrl gQInput, .SendMessage sMInput,
                       .logDebug ("Message Sent with Id: " ++ id)] }

/-! ## Reading the results -/

/-- The value an attribute with template text `v` holds after a loop that returned no
error: the rendering when the template parses and renders to a non-empty string, the
text `v` otherwise. -/
def renderValue {F V T : Type} (tt : TextTemplate F V T) (name : String) (f : F) (vars : V)
    (v : String) : String :=
  match tt.Parse name f v with
  | .error _ => v
  | .ok tmpl =>
    match tt.Execute tmpl vars with
    | .error _ => v
    | .ok val => if val ≠ "" then val else v

/-- The template text `v` parses and its execution fails. -/
def execFails {F V T : Type} (tt : TextTemplate F V T) (name : String) (f : F) (vars : V)
    (v : String) : Bool :=
  match tt.Parse name f v with
  | .error _ => false
  | .ok tmpl =>
    match tt.Execute tmpl vars with
    | .error _ => true
    | .ok _ => false

/-- The SQS calls among the events of a run. -/
def Run.calls (run : Run) : List Event :=
  run.events.filter fun e =>
    match e with
    | .GetQueueUrl _ => true
    | .SendMessage _ => true
    | _ => false

/-! ## Concrete inputs -/

/-- The heap of `TestGetTemplater_AwsSqs`: the configured attribute map is the object
behind reference `0`. -/
def Test.heap : Heap := fun r =>
  if r = 0 then [("attributeKey", "\x7b\x7b.messageAttributeValue\x7d\x7d")] else []

/-- The receiver of `GetTemplater` in `TestGetTemplater_AwsSqs`. -/
def Test.n : AwsSqsNotification := { MessageAttributes := some 0 }

/-- The variables of `TestGetTemplater_AwsSqs`. -/
def Test.vars : Fragment.Vars :=
  [("message", "abcdef"), ("messageAttributeValue", "123456")]

/-- Variables of a later notification. -/
def Test.laterVars : Fragment.Vars :=
  [("message", "ghijkl"), ("messageAttributeValue", "abcdef")]

/-- The fresh `var notification Notification` of the test. -/
def Test.blank : Notification := { Message := "", AwsSqs := none }

/-- The templater of the test. -/
def Test.templater : Templater Fragment.Vars :=
  (GetTemplater Fragment.engine Test.n "" ()).1

/-- The first call of the templater. -/
def Test.first : Heap × Notification × Option GoError :=
  Test.templater ["attributeKey"] Test.heap Test.blank Test.vars

/-- A second call of the same templater, on the heap the first call left, for a later
notification. -/
def Test.second : Heap × Notification × Option GoError :=
  Test.templater ["attributeKey"] Test.first.1 Test.blank Test.laterVars

/-- A map with a template that does not parse (`bad`), one that renders to the empty
string (`empty`) and one that renders (`plain`). -/
def Test.mixedHeap : Heap := fun r =>
  if r = 0 then
    [("bad", "\x7b\x7b.open"), ("empty", "\x7b\x7b.none\x7d\x7d"), ("plain", "id-\x7b\x7b.id\x7d\x7d")]
  else []

/-- Variables for `Test.mixedHeap`. -/
def Test.mixedVars : Fragment.Vars := [("none", ""), ("id", "7")]

/-- A map with a template that does not parse (`bad`) and one that parses and fails to
execute (`deep`). -/
def Test.failingHeap : Heap := fun r =>
  if r = 0 then [("bad", "\x7b\x7b.open"), ("deep", "\x7b\x7b.id.part\x7d\x7d")] else []

/-- An SDK whose three operations succeed: the configuration is the option list, the queue
URL is built from the queue name, the message id is fixed. -/
def Test.sdk : SDK (List LoadOption) where
  LoadDefaultConfig := fun options => .ok options
  GetQueueUrl := fun _ input => .ok { QueueUrl := some ("http://sqs.test/" ++ input.QueueName.getD "") }
  SendMessage := fun _ _ => .ok { MessageId := some "id-1" }

/-- An SDK whose configuration does not load. -/
def Test.sdkNoConfig : SDK (List LoadOption) :=
  { Test.sdk with LoadDefaultConfig := fun _ => .error { msg := "no configuration" } }

/-- An SDK that does not find the queue. -/
def Test.sdkNoQueue : SDK (List LoadOption) :=
  { Test.sdk with GetQueueUrl := fun _ _ => .error { msg := "no such queue" } }

/-- An SDK that finds the queue and fails to send. -/
def Test.sdkNoSend : SDK (List LoadOption) :=
  { Test.sdk with SendMessage := fun _ _ => .error { msg := "send refused" } }

/-- An SDK whose `SendMessage` succeeds with a reply that carries no message id. -/
def Test.sdkNoId : SDK (List LoadOption) :=
  { Test.sdk with SendMessage := fun _ _ => .ok { MessageId := none } }

/-- An environment that sets only `AWS_DEFAULT_REGION`. -/
def Test.getenv : String → String := fun key =>
  if key = "AWS_DEFAULT_REGION" then "eu-west-1" else ""

/-- A service with a queue, an account, static credentials and a local endpoint, and no
region. -/
def Test.service : awsSqservice :=
  NewAwsSqsService
    { Queue := "events", Account := "123456789012", Region := "",
      EndpointUrl := "http://127.0.0.1", AwsAccess := { Key := "key", Secret := "secret" } }

/-- The notification the first templater call of the test leaves, with its message
rendered: its attribute map is the object behind reference `0`. -/
def Test.rendered : Notification :=
  { Message := "abcdef", AwsSqs := some { MessageAttributes := some 0 } }

/-- A destination that names its own queue. -/
def Test.dest : Destination := { Service := "awssqs", Recipient := "overrides" }

/-! ## Maps -/

theorem GoMap.index_assign_same (m : GoMap) (k v : String) :
    (m.assign k v).index k = some v := by
  induction m with
  | nil => simp [GoMap.assign, GoMap.index]
  | cons kv rest ih =>
    obtain ⟨k', v'⟩ := kv
    by_cases hk : k' = k
    · simp [GoMap.assign, GoMap.index, hk]
    · simp [GoMap.assign, GoMap.index, hk, ih]

theorem GoMap.index_assign_ne (m : GoMap) (k v k2 : String) (hne : k2 ≠ k) :
    (m.assign k v).index k2 = m.index k2 := by
  induction m with
  | nil => simp [GoMap.assign, GoMap.index, Ne.symm hne]
  | cons kv rest ih =>
    obtain ⟨k', v'⟩ := kv
    by_cases hk : k' = k
    · subst hk
      simp [GoMap.assign, GoMap.index, Ne.symm hne]
    · by_cases hk2 : k' = k2
      · subst hk2
        simp [GoMap.assign, GoMap.index, hk]
      · simp [GoMap.assign, GoMap.index, hk, hk2, ih]

theorem GoMap.keys_assign (m : GoMap) (k v v0 : String) (hk : m.index k = some v0) :
    (m.assign k v).keys = m.keys := by
  induction m with
  | nil => simp [GoMap.index] at hk
  | cons kv rest ih =>
    obtain ⟨k', v'⟩ := kv
    by_cases hk' : k' = k
    · simp [GoMap.assign, GoMap.keys, hk']
    · simp only [GoMap.index, hk', if_false] at hk
      have := ih hk
      simp only [GoMap.keys] at this
      simp [GoMap.assign, GoMap.keys, hk', this]

theorem GoMap.index_of_mem (m : GoMap) (hwf : m.WF) (k v : String) (hm : (k, v) ∈ m) :
    m.index k = some v := by
  induction m with
  | nil => simp at hm
  | cons kv rest ih =>
    obtain ⟨k', v'⟩ := kv
    simp only [GoMap.WF, GoMap.keys, List.map_cons, List.nodup_cons] at hwf
    rcases List.mem_cons.mp hm with heq | hin
    · cases heq
      simp [GoMap.index]
    · have hkin : k ∈ List.map Prod.fst rest := List.mem_map.mpr ⟨(k, v), hin, rfl⟩
      have hne : k' ≠ k := fun e => hwf.1 (e ▸ hkin)
      simp only [GoMap.index, hne, if_false]
      exact ih hwf.2 hin

theorem GoMap.mem_of_index (m : GoMap) (k v : String) (hi : m.index k = some v) :
    (k, v) ∈ m := by
  induction m with
  | nil => simp [GoMap.index] at hi
  | cons kv rest ih =>
    obtain ⟨k', v'⟩ := kv
    by_cases hk : k' = k
    · simp only [GoMap.index, hk, if_true, Option.some.injEq] at hi
      simp [hk, hi]
    · simp only [GoMap.index, hk, if_false] at hi
      exact List.mem_cons_of_mem _ (ih hi)

/-! ## The attribute loop -/

section Loop

variable {F V T : Type} (tt : TextTemplate F V T) (name : String) (f : F) (vars : V)

theorem renderValue_of_parse_error (v : String) (e : GoError)
    (hp : tt.Parse name f v = .error e) : renderValue tt name f vars v = v := by
  simp [renderValue, hp]

theorem renderValue_of_empty (v : String) (t : T) (hp : tt.Parse name f v = .ok t)
    (hx : tt.Execute t vars = .ok "") : renderValue tt name f vars v = v := by
  simp [renderValue, hp, hx]

theorem renderValue_of_render (v val : String) (t : T) (hp : tt.Parse name f v = .ok t)
    (hx : tt.Execute t vars = .ok val) (hne : val ≠ "") :
    renderValue tt name f vars v = val := by
  simp [renderValue, hp, hx, hne]

theorem execFails_iff (v : String) :
    execFails tt name f vars v = true ↔
      ∃ t e, tt.Parse name f v = .ok t ∧ tt.Execute t vars = .error e := by
  unfold execFails
  cases hp : tt.Parse name f v with
  | error e => simp
  | ok t =>
    cases hx : tt.Execute t vars with
    | error e => simp [hx]
    | ok val => simp [hx]

/-- What the loop does to the heap and when it returns an error, for a traversal that
visits no key twice. -/
theorem loop_spec (r : MapRef) : ∀ (ks : List String) (h : Heap), ks.Nodup →
    (∀ r', r' ≠ r → (parseMessageAttributes.loop tt name f vars r ks h).1 r' = h r') ∧
    ((parseMessageAttributes.loop tt name f vars r ks h).1 r).keys = (h r).keys ∧
    ((parseMessageAttributes.loop tt name f vars r ks h).2 = none ↔
      ∀ k ∈ ks, ∀ v, (h r).index k = some v → execFails tt name f vars v = false) ∧
    ((parseMessageAttributes.loop tt name f vars r ks h).2 = none →
      ∀ k, ((parseMessageAttributes.loop tt name f vars r ks h).1 r).index k =
        if k ∈ ks then ((h r).index k).map (renderValue tt name f vars) else (h r).index k) := by
  intro ks
  induction ks with
  | nil =>
    intro h _
    simp [parseMessageAttributes.loop]
  | cons k ks ih =>
    intro h hnd
    have hk : k ∉ ks := (List.nodup_cons.mp hnd).1
    have hks : ks.Nodup := (List.nodup_cons.mp hnd).2
    -- the iteration leaves the heap as it is: used for the three branches that `continue`
    have keep : ∀ (ov : Option String), (h r).index k = ov →
        (∀ v, ov = some v → execFails tt name f vars v = false) →
        (∀ v, ov = some v → renderValue tt name f vars v = v) →
        parseMessageAttributes.loop tt name f vars r (k :: ks) h =
          parseMessageAttributes.loop tt name f vars r ks h →
        (∀ r', r' ≠ r → (parseMessageAttributes.loop tt name f vars r (k :: ks) h).1 r' = h r') ∧
        ((parseMessageAttributes.loop tt name f vars r (k :: ks) h).1 r).keys = (h r).keys ∧
        ((parseMessageAttributes.loop tt name f vars r (k :: ks) h).2 = none ↔
          ∀ k2 ∈ k :: ks, ∀ v, (h r).index k2 = some v → execFails tt name f vars v = false) ∧
        ((parseMessageAttributes.loop tt name f vars r (k :: ks) h).2 = none →
          ∀ k2, ((parseMessageAttributes.loop tt name f vars r (k :: ks) h).1 r).index k2 =
            if k2 ∈ k :: ks then ((h r).index k2).map (renderValue tt name f vars)
            else (h r).index k2) := by
      intro ov hov hfail hrender heq
      rw [heq]
      obtain ⟨h1, h2, h3, h4⟩ := ih h hks
      refine ⟨h1, h2, ?_, ?_⟩
      · rw [h3]
        constructor
        · intro hall k2 hk2 v hv
          rcases List.mem_cons.mp hk2 with e | hin
          · subst e
            exact hfail v (hov.symm.trans hv)
          · exact hall k2 hin v hv
        · intro hall k2 hk2 v hv
          exact hall k2 (List.mem_cons_of_mem _ hk2) v hv
      · intro hnone k2
        rw [h4 hnone k2]
        by_cases e : k2 = k
        · subst e
          simp only [hk, if_false, List.mem_cons, true_or, if_true]
          cases hi : (h r).index k2 with
          | none => rfl
          | some v =>
            have := hrender v (hov.symm.trans hi)
            simp [this]
        · simp [List.mem_cons, e]
    cases hi : (h r).index k with
    | none =>
      exact keep none hi (by simp) (by simp) (by simp [parseMessageAttributes.loop, hi])
    | some v =>
      cases hp : tt.Parse name f v with
      | error e =>
        refine keep (some v) hi ?_ ?_ (by simp [parseMessageAttributes.loop, hi, hp])
        · intro v' hv'
          cases hv'
          simp [execFails, hp]
        · intro v' hv'
          cases hv'
          simp [renderValue, hp]
      | ok t =>
        cases hx : tt.Execute t vars with
        | error e =>
          have heq : parseMessageAttributes.loop tt name f vars r (k :: ks) h = (h, some e) := by
            simp [parseMessageAttributes.loop, hi, hp, hx]
          rw [heq]
          refine ⟨fun _ _ => rfl, rfl, ?_, ?_⟩
          · simp only [reduceCtorEq, false_iff]
            intro hall
            have := hall k (List.mem_cons_self _ _) v hi
            simp [execFails, hp, hx] at this
          · intro hc
            simp at hc
        | ok val =>
          by_cases hval : val = ""
          · refine keep (some v) hi ?_ ?_ (by simp [parseMessageAttributes.loop, hi, hp, hx, hval])
            · intro v' hv'
              cases hv'
              simp [execFails, hp, hx]
            · intro v' hv'
              cases hv'
              simp [renderValue, hp, hx, hval]
          · have heq : parseMessageAttributes.loop tt name f vars r (k :: ks) h =
                parseMessageAttributes.loop tt name f vars r ks (h.assign r k val) := by
              simp [parseMessageAttributes.loop, hi, hp, hx, hval]
            rw [heq]
            obtain ⟨h1, h2, h3, h4⟩ := ih (h.assign r k val) hks
            have hr : (h.assign r k val) r = (h r).assign k val := by simp [Heap.assign]
            have hidx : ∀ k2, k2 ≠ k → ((h.assign r k val) r).index k2 = (h r).index k2 := by
              intro k2 hne
              rw [hr]
              exact GoMap.index_assign_ne _ _ _ _ hne
            refine ⟨?_, ?_, ?_, ?_⟩
            · intro r' hr'
              rw [h1 r' hr']
              simp [Heap.assign, hr']
            · rw [h2, hr]
              exact GoMap.keys_assign _ _ _ _ hi
            · rw [h3]
              constructor
              · intro hall k2 hk2 v2 hv2
                rcases List.mem_cons.mp hk2 with e | hin
                · subst e
                  have : v2 = v := by
                    rw [hi] at hv2
                    exact (Option.some.inj hv2).symm
                  subst this
                  simp [execFails, hp, hx]
                · have hne : k2 ≠ k := fun e => hk (e ▸ hin)
                  exact hall k2 hin v2 (by rw [hidx k2 hne]; exact hv2)
              · intro hall k2 hk2 v2 hv2
                have hne : k2 ≠ k := fun e => hk (e ▸ hk2)
                exact hall k2 (List.mem_cons_of_mem _ hk2) v2 (by rw [← hidx k2 hne]; exact hv2)
            · intro hnone k2
              rw [h4 hnone k2]
              by_cases e : k2 = k
              · subst e
                simp only [hk, if_false, List.mem_cons, true_or, if_true]
                rw [hr, GoMap.index_assign_same, hi]
                simp [renderValue, hp, hx, hval]
              · simp only [List.mem_cons, e, false_or]
                rw [hidx k2 e]

end Loop

/-! ## The templater -/

section Templater

variable {F V T : Type} (tt : TextTemplate F V T) (name : String) (f : F) (vars : V)

theorem RangeOrder.nodup {m : GoMap} {order : List String} (hwf : m.WF)
    (hord : RangeOrder m order) : order.Nodup :=
  (List.Perm.nodup_iff hord).mpr hwf

theorem RangeOrder.mem_of_mem {m : GoMap} {order : List String} (hord : RangeOrder m order)
    {k v : String} (hm : (k, v) ∈ m) : k ∈ order :=
  (List.Perm.mem_iff hord).mpr (List.mem_map.mpr ⟨(k, v), hm, rfl⟩)

/-- The method on a non-nil map is the loop on the map's object. -/
theorem parseMessageAttributes_some (n : AwsSqsNotification) (r : MapRef)
    (hr : n.MessageAttributes = some r) (order : List String) (h : Heap) :
    parseMessageAttributes tt n name f vars order h =
      parseMessageAttributes.loop tt name f vars r order h := by
  simp [parseMessageAttributes, hr]

/-- On a non-empty configured map behind `r`, the templater points the notification at
that same object, runs the loop on it and returns the loop's error. -/
theorem templater_nonempty (n : AwsSqsNotification) (r : MapRef)
    (hr : n.MessageAttributes = some r) (order : List String) (h : Heap) (hne : h r ≠ [])
    (notification : Notification) :
    ((GetTemplater tt n name f).1 order h notification vars).1 =
        (parseMessageAttributes.loop tt name f vars r order h).1 ∧
    ((GetTemplater tt n name f).1 order h notification vars).2.1.AwsSqs =
        some { MessageAttributes := some r } ∧
    ((GetTemplater tt n name f).1 order h notification vars).2.2 =
        (parseMessageAttributes.loop tt name f vars r order h).2 := by
  have hlen : n.lenMessageAttributes h > 0 := by
    simp only [AwsSqsNotification.lenMessageAttributes, hr, GoMap.len]
    exact List.length_pos.mpr hne
  simp only [GetTemplater, hlen, if_true, parseMessageAttributes, hr]
  cases he : (parseMessageAttributes.loop tt name f vars r order h).2 with
  | none =>
    have : parseMessageAttributes.loop tt name f vars r order h =
        ((parseMessageAttributes.loop tt name f vars r order h).1, none) := by
      rw [← he]
    rw [this]
    simp
  | some e =>
    have : parseMessageAttributes.loop tt name f vars r order h =
        ((parseMessageAttributes.loop tt name f vars r order h).1, some e) := by
      rw [← he]
    rw [this]
    simp

/-- With no configured attribute the templater leaves the heap alone and returns nil. -/
theorem templater_empty (n : AwsSqsNotification) (order : List String) (h : Heap)
    (hemp : n.entries h = []) (notification : Notification) :
    ((GetTemplater tt n name f).1 order h notification vars).1 = h ∧
    ((GetTemplater tt n name f).1 order h notification vars).2.2 = none := by
  have hlen : ¬ n.lenMessageAttributes h > 0 := by
    unfold AwsSqsNotification.lenMessageAttributes
    unfold AwsSqsNotification.entries at hemp
    cases hm : n.MessageAttributes with
    | none => simp
    | some r =>
      rw [hm] at hemp
      have hz : h r = [] := hemp
      simp [GoMap.len, hz]
  simp [GetTemplater, hlen]

/-- The error of `parseMessageAttributes`, read off the entries of the map. -/
theorem parseMessageAttributes_error (n : AwsSqsNotification) (order : List String)
    (h : Heap) (hwf : (n.entries h).WF) (hord : RangeOrder (n.entries h) order) :
    (parseMessageAttributes tt n name f vars order h).2 ≠ none ↔
      ∃ k v, (k, v) ∈ n.entries h ∧
        ∃ t e, tt.Parse name f v = .ok t ∧ tt.Execute t vars = .error e := by
  cases hr : n.MessageAttributes with
  | none => simp [parseMessageAttributes, hr, AwsSqsNotification.entries]
  | some r =>
    have hent : n.entries h = h r := by simp [AwsSqsNotification.entries, hr]
    rw [hent] at hwf hord ⊢
    rw [parseMessageAttributes_some tt name f vars n r hr]
    obtain ⟨_, _, h3, _⟩ := loop_spec tt name f vars r order h (RangeOrder.nodup hwf hord)
    rw [Ne, h3]
    constructor
    · intro hnot
      by_contra hcon
      apply hnot
      intro k _ v hv
      cases hb : execFails tt name f vars v with
      | false => rfl
      | true =>
        exfalso
        apply hcon
        exact ⟨k, v, GoMap.mem_of_index _ _ _ hv, (execFails_iff tt name f vars v).mp hb⟩
    · rintro ⟨k, v, hm, hex⟩ hall
      have := hall k (RangeOrder.mem_of_mem hord hm) v (GoMap.index_of_mem _ hwf k v hm)
      rw [(execFails_iff tt name f vars v).mpr hex] at this
      exact Bool.noConfusion this

/-- The error of the templater is the error of `parseMessageAttributes` on the configured
map. -/
theorem templater_error (n : AwsSqsNotification) (order : List String) (h : Heap)
    (notification : Notification) :
    ((GetTemplater tt n name f).1 order h notification vars).2.2 =
      (parseMessageAttributes tt n name f vars order h).2 := by
  cases hr : n.MessageAttributes with
  | none =>
    have hemp : n.entries h = [] := by simp [AwsSqsNotification.entries, hr]
    rw [(templater_empty tt name f vars n order h hemp notification).2]
    simp [parseMessageAttributes, hr]
  | some r =>
    by_cases hne : h r = []
    · have hemp : n.entries h = [] := by simp [AwsSqsNotification.entries, hr, hne]
      rw [(templater_empty tt name f vars n order h hemp notification).2]
      rw [parseMessageAttributes_some tt name f vars n r hr]
      induction order with
      | nil => rfl
      | cons k ks ih =>
        simp only [parseMessageAttributes.loop, hne, GoMap.index]
        exact ih
    · rw [(templater_nonempty tt name f vars n r hr order h hne notification).2.2]
      rw [parseMessageAttributes_some tt name f vars n r hr]

/-- The final value of every attribute after a templater run without error. -/
theorem templater_values (n : AwsSqsNotification) (order : List String) (h : Heap)
    (notification : Notification) (hwf : (n.entries h).WF)
    (hord : RangeOrder (n.entries h) order)
    (herr : ((GetTemplater tt n name f).1 order h notification vars).2.2 = none)
    (k v : String) (hm : (k, v) ∈ n.entries h) :
    (((GetTemplater tt n name f).1 order h notification vars).2.1.attributes
        ((GetTemplater tt n name f).1 order h notification vars).1).index k =
      some (renderValue tt name f vars v) ∧
    (((GetTemplater tt n name f).1 order h notification vars).2.1.attributes
        ((GetTemplater tt n name f).1 order h notification vars).1).keys = (n.entries h).keys := by
  cases hr : n.MessageAttributes with
  | none => simp [AwsSqsNotification.entries, hr] at hm
  | some r =>
    have hent : n.entries h = h r := by simp [AwsSqsNotification.entries, hr]
    rw [hent] at hwf hord hm ⊢
    have hne : h r ≠ [] := List.ne_nil_of_mem hm
    obtain ⟨t1, t2, t3⟩ := templater_nonempty tt name f vars n r hr order h hne notification
    rw [t3] at herr
    obtain ⟨_, l2, _, l4⟩ := loop_spec tt name f vars r order h (RangeOrder.nodup hwf hord)
    simp only [Notification.attributes, t2, AwsSqsNotification.entries, t1]
    refine ⟨?_, l2⟩
    rw [l4 herr k]
    simp [RangeOrder.mem_of_mem hord hm, GoMap.index_of_mem _ hwf k v hm]

end Templater

/-! ## Claims on the templater -/

section TemplaterClaims

variable {F V T : Type} (tt : TextTemplate F V T) (name : String) (f : F) (vars : V)

/-- C1: when the configured attribute map is non-empty and every template in it parses,
executes and renders to a non-empty string, the templater returned by `GetTemplater`
returns no error and leaves `notification.AwsSqs.MessageAttributes` with the keys of the
configured map, each mapped to the rendering of its template against the variables. -/
theorem GetTemplater_renders_every_attribute (n : AwsSqsNotification)
    (order : List String) (h : Heap) (notification : Notification)
    (hne : n.entries h ≠ []) (hwf : (n.entries h).WF)
    (hord : RangeOrder (n.entries h) order)
    (hall : ∀ k v, (k, v) ∈ n.entries h →
      ∃ t val, tt.Parse name f v = .ok t ∧ tt.Execute t vars = .ok val ∧ val ≠ "") :
    (GetTemplater tt n name f).2 = none ∧
    ((GetTemplater tt n name f).1 order h notification vars).2.2 = none ∧
    (((GetTemplater tt n name f).1 order h notification vars).2.1.attributes
        ((GetTemplater tt n name f).1 order h notification vars).1).keys
      = (n.entries h).keys ∧
    ∀ k v t val, (k, v) ∈ n.entries h →
      tt.Parse name f v = .ok t → tt.Execute t vars = .ok val →
      (((GetTemplater tt n name f).1 order h notification vars).2.1.attributes
        ((GetTemplater tt n name f).1 order h notification vars).1).index k = some val := by
  have herr : ((GetTemplater tt n name f).1 order h notification vars).2.2 = none := by
    rw [templater_error]
    by_contra hcon
    obtain ⟨k, v, hm, t, e, hp, hx⟩ :=
      (parseMessageAttributes_error tt name f vars n order h hwf hord).mp hcon
    obtain ⟨t', val, hp', hx', _⟩ := hall k v hm
    rw [hp] at hp'
    cases hp'
    rw [hx] at hx'
    cases hx'
  obtain ⟨kv, hkv⟩ := List.exists_mem_of_ne_nil _ hne
  refine ⟨rfl, herr, ?_, ?_⟩
  · exact (templater_values tt name f vars n order h notification hwf hord herr
      kv.1 kv.2 hkv).2
  · intro k v t val hm hp hx
    obtain ⟨t', val', hp', hx', hval⟩ := hall k v hm
    rw [hp] at hp'
    cases hp'
    rw [hx] at hx'
    cases hx'
    rw [(templater_values tt name f vars n order h notification hwf hord herr k v hm).1,
      renderValue_of_render tt name f vars v val t hp hx hval]

/-- C3: `parseMessageAttributes`, and with it the templater, returns an error exactly
when some attribute's template parses and fails to execute.  The condition does not
mention the traversal order, so two traversals of the same map agree on whether an error
is returned; a template that fails to parse is never the cause. -/
theorem parseMessageAttributes_error_iff (n : AwsSqsNotification)
    (order order' : List String) (h : Heap) (notification : Notification)
    (hwf : (n.entries h).WF) (hord : RangeOrder (n.entries h) order)
    (hord' : RangeOrder (n.entries h) order') :
    ((parseMessageAttributes tt n name f vars order h).2 ≠ none ↔
      ∃ k v, (k, v) ∈ n.entries h ∧
        ∃ t e, tt.Parse name f v = .ok t ∧ tt.Execute t vars = .error e) ∧
    (((GetTemplater tt n name f).1 order h notification vars).2.2 ≠ none ↔
      ∃ k v, (k, v) ∈ n.entries h ∧
        ∃ t e, tt.Parse name f v = .ok t ∧ tt.Execute t vars = .error e) ∧
    ((parseMessageAttributes tt n name f vars order h).2 ≠ none ↔
      (parseMessageAttributes tt n name f vars order' h).2 ≠ none) := by
  have e1 := parseMessageAttributes_error tt name f vars n order h hwf hord
  have e2 := parseMessageAttributes_error tt name f vars n order' h hwf hord'
  refine ⟨e1, ?_, e1.trans e2.symm⟩
  rw [templater_error]
  exact e1

/-- C4: after a templater run that returns no error, an attribute whose template fails to
parse, and an attribute whose template renders to the empty string, holds its original
template text. -/
theorem templater_keeps_unrendered_text (n : AwsSqsNotification)
    (order : List String) (h : Heap) (notification : Notification)
    (hwf : (n.entries h).WF) (hord : RangeOrder (n.entries h) order)
    (herr : ((GetTemplater tt n name f).1 order h notification vars).2.2 = none)
    (k v : String) (hm : (k, v) ∈ n.entries h)
    (hcase : (∃ e, tt.Parse name f v = .error e) ∨
      (∃ t, tt.Parse name f v = .ok t ∧ tt.Execute t vars = .ok "")) :
    (((GetTemplater tt n name f).1 order h notification vars).2.1.attributes
        ((GetTemplater tt n name f).1 order h notification vars).1).index k = some v := by
  rw [(templater_values tt name f vars n order h notification hwf hord herr k v hm).1]
  rcases hcase with ⟨e, hp⟩ | ⟨t, hp, hx⟩
  · rw [renderValue_of_parse_error tt name f vars v e hp]
  · rw [renderValue_of_empty tt name f vars v t hp hx]

end TemplaterClaims

/-- C1, on `TestGetTemplater_AwsSqs`: the attribute `attributeKey` with template
`.messageAttributeValue` ends as `123456`. -/
theorem GetTemplater_renders_every_attribute_witness :
    Test.first.2.2 = none ∧
    (Test.first.2.1.attributes Test.first.1).keys = ["attributeKey"] ∧
    (Test.first.2.1.attributes Test.first.1).index "attributeKey" = some "123456" := by
  have hall : ∀ k v, (k, v) ∈ Test.n.entries Test.heap →
      ∃ t val, Fragment.engine.Parse "" () v = .ok t ∧
        Fragment.engine.Execute t Test.vars = .ok val ∧ val ≠ "" := by
    intro k v hm
    have hv : v = "\x7b\x7b.messageAttributeValue\x7d\x7d" := by
      simp [AwsSqsNotification.entries, Test.n, Test.heap] at hm
      exact hm.2
    subst hv
    exact ⟨[.field ["messageAttributeValue"]], "123456", by decide, by decide, by decide⟩
  have key := GetTemplater_renders_every_attribute Fragment.engine "" () Test.vars Test.n
    ["attributeKey"] Test.heap Test.blank (by decide) (by decide) (List.Perm.refl _) hall
  exact ⟨key.2.1, key.2.2.1, key.2.2.2 "attributeKey" "\x7b\x7b.messageAttributeValue\x7d\x7d"
    [.field ["messageAttributeValue"]] "123456" (by decide) (by decide) (by decide)⟩

/-- C3, on a map holding an unparsable template and one that parses and fails to execute:
an error is returned, in either traversal order. -/
theorem parseMessageAttributes_error_iff_witness :
    (parseMessageAttributes Fragment.engine Test.n "" () Test.mixedVars ["bad", "deep"]
        Test.failingHeap).2 ≠ none ∧
    (parseMessageAttributes Fragment.engine Test.n "" () Test.mixedVars ["deep", "bad"]
        Test.failingHeap).2 ≠ none := by
  have key := parseMessageAttributes_error_iff Fragment.engine "" () Test.mixedVars Test.n
    ["bad", "deep"] ["deep", "bad"] Test.failingHeap Test.blank (by decide)
    (List.Perm.refl _) (List.Perm.swap _ _ _)
  have herr := key.1.mpr ⟨"deep", "\x7b\x7b.id.part\x7d\x7d", by decide,
    [.field ["id", "part"]], ⟨"can't evaluate field part in type string"⟩, by decide, by decide⟩
  exact ⟨herr, key.2.2.mp herr⟩

/-- C4, on a map holding an unparsable template and one that renders to the empty string:
both keep their text. -/
theorem templater_keeps_unrendered_text_witness :
    ((Test.templater ["bad", "empty", "plain"] Test.mixedHeap Test.blank
        Test.mixedVars).2.1.attributes
      (Test.templater ["bad", "empty", "plain"] Test.mixedHeap Test.blank
        Test.mixedVars).1).index "bad" = some "\x7b\x7b.open" ∧
    ((Test.templater ["bad", "empty", "plain"] Test.mixedHeap Test.blank
        Test.mixedVars).2.1.attributes
      (Test.templater ["bad", "empty", "plain"] Test.mixedHeap Test.blank
        Test.mixedVars).1).index "empty" = some "\x7b\x7b.none\x7d\x7d" :=
  ⟨templater_keeps_unrendered_text Fragment.engine "" () Test.mixedVars Test.n
      ["bad", "empty", "plain"] Test.mixedHeap Test.blank (by decide) (List.Perm.refl _)
      (by decide) "bad" "\x7b\x7b.open" (by decide)
      (Or.inl ⟨⟨"unclosed action"⟩, by decide⟩),
   templater_keeps_unrendered_text Fragment.engine "" () Test.mixedVars Test.n
      ["bad", "empty", "plain"] Test.mixedHeap Test.blank (by decide) (List.Perm.refl _)
      (by decide) "empty" "\x7b\x7b.none\x7d\x7d" (by decide)
      (Or.inr ⟨[.field ["none"]], by decide, by decide⟩)⟩

/-- C10: two calls of the templater of `TestGetTemplater_AwsSqs`.  The first call writes
its rendering into the configured map, so the second call, made with other variables,
finds `123456` where the template was and yields `123456` again; the configured template
rendered against the second variables is `abcdef`. -/
theorem templater_second_call_keeps_first_rendering :
    Test.first.2.2 = none ∧ Test.second.2.2 = none ∧
    Test.n.entries Test.heap = [("attributeKey", "\x7b\x7b.messageAttributeValue\x7d\x7d")] ∧
    Test.n.entries Test.first.1 = [("attributeKey", "123456")] ∧
    Test.second.2.1.attributes Test.second.1 = [("attributeKey", "123456")] ∧
    renderValue Fragment.engine "" () Test.laterVars
      "\x7b\x7b.messageAttributeValue\x7d\x7d" = "abcdef" := by
  decide

/-! ## The delivery routine -/

section SendLemmas

variable {Cfg : Type} (sdk : SDK Cfg) (getenv : String → String) (s : awsSqservice)
  (notification : Notification) (dest : Destination)

/-- The run when the configuration does not load. -/
theorem Send_of_config_error (e : GoError)
    (hl : sdk.LoadDefaultConfig (Send.options getenv s) = .error e) :
    Send sdk getenv s notification dest =
      { outcome := .fatal ("failed to load configuration, " ++ e.msg),
        events := [.LoadDefaultConfig (Send.options getenv s)] } := by
  simp [Send, hl]

/-- The run when the queue URL is not resolved. -/
theorem Send_of_queue_error (client : Cfg) (e : GoError)
    (hl : sdk.LoadDefaultConfig (Send.options getenv s) = .ok client)
    (hq : sdk.GetQueueUrl client (Send.gQInput s dest) = .error e) :
    Send sdk getenv s notification dest =
      { outcome := .returned (some e),
        events := [.LoadDefaultConfig (Send.options getenv s),
                   .GetQueueUrl (Send.gQInput s dest),
                   .logError ("Got an error getting the queue URL: " ++ e.msg)] } := by
  simp [Send, hl, hq]

/-- The run when the message is not sent. -/
theorem Send_of_send_error (client : Cfg) (result : GetQueueUrlOutput) (e : GoError)
    (hl : sdk.LoadDefaultConfig (Send.options getenv s) = .ok client)
    (hq : sdk.GetQueueUrl client (Send.gQInput s dest) = .ok result)
    (hs : sdk.SendMessage client (Send.sMInput result.QueueUrl notification) = .error e) :
    Send sdk getenv s notification dest =
      { outcome := .returned (some e),
        events := [.LoadDefaultConfig (Send.options getenv s),
                   .GetQueueUrl (Send.gQInput s dest),
                   .SendMessage (Send.sMInput result.QueueUrl notification),
                   .logError ("Got an error sending the message: " ++ e.msg)] } := by
  simp [Send, hl, hq, hs]

/-- The run when the message is sent and the reply carries its id. -/
theorem Send_of_success (client : Cfg) (result : GetQueueUrlOutput) (id : String)
    (hl : sdk.LoadDefaultConfig (Send.options getenv s) = .ok client)
    (hq : sdk.GetQueueUrl client (Send.gQInput s dest) = .ok result)
    (hs : sdk.SendMessage client (Send.sMInput result.QueueUrl notification) =
      .ok { MessageId := some id }) :
    Send sdk getenv s notification dest =
      { outcome := .returned none,
        events := [.LoadDefaultConfig (Send.options getenv s),
                   .GetQueueUrl (Send.gQInput s dest),
                   .SendMessage (Send.sMInput result.QueueUrl notification),
                   .logDebug ("Message Sent with Id: " ++ id)] } := by
  simp [Send, hl, hq, hs]

/-- The run when the message is sent and the reply carries no id. -/
theorem Send_of_reply_without_id (client : Cfg) (result : GetQueueUrlOutput)
    (hl : sdk.LoadDefaultConfig (Send.options getenv s) = .ok client)
    (hq : sdk.GetQueueUrl client (Send.gQInput s dest) = .ok result)
    (hs : sdk.SendMessage client (Send.sMInput result.QueueUrl notification) =
      .ok { MessageId := none }) :
    Send sdk getenv s notification dest =
      { outcome := .nilDereference,
        events := [.LoadDefaultConfig (Send.options getenv s),
                   .GetQueueUrl (Send.gQInput s dest),
                   .SendMessage (Send.sMInput result.QueueUrl notification)] } := by
  simp [Send, hl, hq, hs]

/-- Every run starts by loading the configuration with the options of lines 43-74. -/
theorem Send_events_head :
    (Send sdk getenv s notification dest).events.head? =
      some (.LoadDefaultConfig (Send.options getenv s)) := by
  cases hl : sdk.LoadDefaultConfig (Send.options getenv s) with
  | error e => rw [Send_of_config_error sdk getenv s notification dest e hl]; rfl
  | ok client =>
    cases hq : sdk.GetQueueUrl client (Send.gQInput s dest) with
    | error e => rw [Send_of_queue_error sdk getenv s notification dest client e hl hq]; rfl
    | ok result =>
      cases hs : sdk.SendMessage client (Send.sMInput result.QueueUrl notification) with
      | error e =>
        rw [Send_of_send_error sdk getenv s notification dest client result e hl hq hs]; rfl
      | ok resp =>
        obtain ⟨mid⟩ := resp
        cases mid with
        | none =>
            rw [Send_of_reply_without_id sdk getenv s notification dest client result hl hq hs]; rfl
        | some id =>
            rw [Send_of_success sdk getenv s notification dest client result id hl hq hs]; rfl

end SendLemmas

/-! ## Claims on the delivery routine -/

section SendClaims

variable {Cfg : Type} (sdk : SDK Cfg) (getenv : String → String) (s : awsSqservice)
  (notification : Notification) (dest : Destination)

/-- C2: every `GetQueueUrl` request of a run of `Send` names the destination's recipient
when it is non-empty and the configured queue otherwise, and carries the configured
account as queue owner when it is non-empty and no owner otherwise; a run whose
configuration loads issues such a request. -/
theorem Send_GetQueueUrl_request :
    (∀ input, Event.GetQueueUrl input ∈ (Send sdk getenv s notification dest).events →
      input.QueueName =
        some (if dest.Recipient ≠ "" then dest.Recipient else s.opts.Queue) ∧
      input.QueueOwnerAWSAccountId =
        (if s.opts.Account ≠ "" then some s.opts.Account else none)) ∧
    (∀ client, sdk.LoadDefaultConfig (Send.options getenv s) = .ok client →
      ∃ input, Event.GetQueueUrl input ∈ (Send sdk getenv s notification dest).events) := by
  have hin : ∀ input, Event.GetQueueUrl input ∈ (Send sdk getenv s notification dest).events →
      input = Send.gQInput s dest := by
    intro input
    cases hl : sdk.LoadDefaultConfig (Send.options getenv s) with
    | error e => rw [Send_of_config_error sdk getenv s notification dest e hl]; simp
    | ok client =>
      cases hq : sdk.GetQueueUrl client (Send.gQInput s dest) with
      | error e => rw [Send_of_queue_error sdk getenv s notification dest client e hl hq]; simp
      | ok result =>
        cases hs : sdk.SendMessage client (Send.sMInput result.QueueUrl notification) with
        | error e =>
          rw [Send_of_send_error sdk getenv s notification dest client result e hl hq hs]; simp
        | ok resp =>
          obtain ⟨mid⟩ := resp
          cases mid with
          | none =>
              rw [Send_of_reply_without_id sdk getenv s notification dest client result hl hq hs]; simp
          | some id =>
              rw [Send_of_success sdk getenv s notification dest client result id hl hq hs]; simp
  constructor
  · intro input hmem
    rw [hin input hmem]
    unfold Send.gQInput
    by_cases hr : dest.Recipient = "" <;> by_cases ha : s.opts.Account = "" <;> simp [hr, ha]
  · intro client hl
    refine ⟨Send.gQInput s dest, ?_⟩
    cases hq : sdk.GetQueueUrl client (Send.gQInput s dest) with
    | error e => rw [Send_of_queue_error sdk getenv s notification dest client e hl hq]; simp
    | ok result =>
      cases hs : sdk.SendMessage client (Send.sMInput result.QueueUrl notification) with
      | error e =>
        rw [Send_of_send_error sdk getenv s notification dest client result e hl hq hs]; simp
      | ok resp =>
        obtain ⟨mid⟩ := resp
        cases mid with
        | none =>
            rw [Send_of_reply_without_id sdk getenv s notification dest client result hl hq hs]; simp
        | some id =>
            rw [Send_of_success sdk getenv s notification dest client result id hl hq hs]; simp

/-- The outcome of `Send`, case by case, with the SQS calls of each run.  When the
configuration does not load the process is terminated and no SQS call is made; when
`GetQueueUrl` fails with `e`, `Send` returns `e` after that one call; when `SendMessage`
fails with `e`, `Send` returns `e` after one `GetQueueUrl` and one `SendMessage`; when
`SendMessage` succeeds, the same two calls were made, and `Send` returns nil if the reply
carries a message id and panics at line 118 if it carries none. -/
theorem Send_outcome_cases :
    (∀ e, sdk.LoadDefaultConfig (Send.options getenv s) = .error e →
      (∃ text, (Send sdk getenv s notification dest).outcome = .fatal text) ∧
      (Send sdk getenv s notification dest).calls = []) ∧
    (∀ client e, sdk.LoadDefaultConfig (Send.options getenv s) = .ok client →
      sdk.GetQueueUrl client (Send.gQInput s dest) = .error e →
      (Send sdk getenv s notification dest).outcome = .returned (some e) ∧
      (Send sdk getenv s notification dest).calls = [.GetQueueUrl (Send.gQInput s dest)]) ∧
    (∀ client result e, sdk.LoadDefaultConfig (Send.options getenv s) = .ok client →
      sdk.GetQueueUrl client (Send.gQInput s dest) = .ok result →
      sdk.SendMessage client (Send.sMInput result.QueueUrl notification) = .error e →
      (Send sdk getenv s notification dest).outcome = .returned (some e) ∧
      (Send sdk getenv s notification dest).calls =
        [.GetQueueUrl (Send.gQInput s dest),
         .SendMessage (Send.sMInput result.QueueUrl notification)]) ∧
    (∀ client result id, sdk.LoadDefaultConfig (Send.options getenv s) = .ok client →
      sdk.GetQueueUrl client (Send.gQInput s dest) = .ok result →
      sdk.SendMessage client (Send.sMInput result.QueueUrl notification) =
        .ok { MessageId := some id } →
      (Send sdk getenv s notification dest).outcome = .returned none ∧
      (Send sdk getenv s notification dest).calls =
        [.GetQueueUrl (Send.gQInput s dest),
         .SendMessage (Send.sMInput result.QueueUrl notification)]) ∧
    (∀ client result, sdk.LoadDefaultConfig (Send.options getenv s) = .ok client →
      sdk.GetQueueUrl client (Send.gQInput s dest) = .ok result →
      sdk.SendMessage client (Send.sMInput result.QueueUrl notification) =
        .ok { MessageId := none } →
      (Send sdk getenv s notification dest).outcome = .nilDereference ∧
      (Send sdk getenv s notification dest).calls =
        [.GetQueueUrl (Send.gQInput s dest),
         .SendMessage (Send.sMInput result.QueueUrl notification)]) := by
  refine ⟨?_, ?_, ?_, ?_, ?_⟩
  · intro e hl
    rw [Send_of_config_error sdk getenv s notification dest e hl]
    exact ⟨⟨_, rfl⟩, by simp [Run.calls]⟩
  · intro client e hl hq
    rw [Send_of_queue_error sdk getenv s notification dest client e hl hq]
    exact ⟨rfl, by simp [Run.calls]⟩
  · intro client result e hl hq hs
    rw [Send_of_send_error sdk getenv s notification dest client result e hl hq hs]
    exact ⟨rfl, by simp [Run.calls]⟩
  · intro client result id hl hq hs
    rw [Send_of_success sdk getenv s notification dest client result id hl hq hs]
    exact ⟨rfl, by simp [Run.calls]⟩
  · intro client result hl hq hs
    rw [Send_of_reply_without_id sdk getenv s notification dest client result hl hq hs]
    exact ⟨rfl, by simp [Run.calls]⟩

/-- C7: every `SendMessage` request of a run of `Send` follows a `GetQueueUrl` call that
succeeded, carries the queue URL that call returned, the notification's message as body
and a delay of 10 seconds; a run whose configuration loads and whose queue is resolved
issues such a request. -/
theorem Send_SendMessage_request :
    (∀ input, Event.SendMessage input ∈ (Send sdk getenv s notification dest).events →
      ∃ client result tail,
        sdk.LoadDefaultConfig (Send.options getenv s) = .ok client ∧
        sdk.GetQueueUrl client (Send.gQInput s dest) = .ok result ∧
        (Send sdk getenv s notification dest).events =
          .LoadDefaultConfig (Send.options getenv s) :: .GetQueueUrl (Send.gQInput s dest) ::
            .SendMessage input :: tail ∧
        input.QueueUrl = result.QueueUrl ∧
        input.MessageBody = some notification.Message ∧
        input.DelaySeconds = 10) ∧
    (∀ client result, sdk.LoadDefaultConfig (Send.options getenv s) = .ok client →
      sdk.GetQueueUrl client (Send.gQInput s dest) = .ok result →
      ∃ input, Event.SendMessage input ∈ (Send sdk getenv s notification dest).events) := by
  constructor
  · intro input
    cases hl : sdk.LoadDefaultConfig (Send.options getenv s) with
    | error e => rw [Send_of_config_error sdk getenv s notification dest e hl]; simp
    | ok client =>
      cases hq : sdk.GetQueueUrl client (Send.gQInput s dest) with
      | error e => rw [Send_of_queue_error sdk getenv s notification dest client e hl hq]; simp
      | ok result =>
        cases hs : sdk.SendMessage client (Send.sMInput result.QueueUrl notification) with
        | error e =>
          rw [Send_of_send_error sdk getenv s notification dest client result e hl hq hs]
          intro hmem
          have hinp : input = Send.sMInput result.QueueUrl notification := by
            simpa using hmem
          subst hinp
          exact ⟨client, result, _, rfl, hq, rfl, rfl, rfl, rfl⟩
        | ok resp =>
          obtain ⟨mid⟩ := resp
          cases mid with
          | none =>
              rw [Send_of_reply_without_id sdk getenv s notification dest client result hl hq hs]
              intro hmem
              have hinp : input = Send.sMInput result.QueueUrl notification := by
                simpa using hmem
              subst hinp
              exact ⟨client, result, _, rfl, hq, rfl, rfl, rfl, rfl⟩
          | some id =>
              rw [Send_of_success sdk getenv s notification dest client result id hl hq hs]
              intro hmem
              have hinp : input = Send.sMInput result.QueueUrl notification := by
                simpa using hmem
              subst hinp
              exact ⟨client, result, _, rfl, hq, rfl, rfl, rfl, rfl⟩
  · intro client result hl hq
    refine ⟨Send.sMInput result.QueueUrl notification, ?_⟩
    cases hs : sdk.SendMessage client (Send.sMInput result.QueueUrl notification) with
    | error e =>
      rw [Send_of_send_error sdk getenv s notification dest client result e hl hq hs]; simp
    | ok resp =>
      obtain ⟨mid⟩ := resp
      cases mid with
      | none =>
          rw [Send_of_reply_without_id sdk getenv s notification dest client result hl hq hs]; simp
      | some id =>
          rw [Send_of_success sdk getenv s notification dest client result id hl hq hs]; simp

/-- C8: `Send` loads the configuration with the options of lines 43-74.  They hold a
static-credential provider exactly when the access key and the secret are both non-empty,
and it is built from that key and secret; they hold a region option exactly when the
region is non-empty, and it is the configured region.  The comparison with
`AwsSqsOptions{}` does not change the first decision, and the zero configuration yields
no option. -/
theorem Send_load_options :
    (Send sdk getenv s notification dest).events.head? =
      some (.LoadDefaultConfig (Send.options getenv s)) ∧
    ((∃ p, LoadOption.WithCredentialsProvider p ∈ Send.options getenv s) ↔
      (s.opts.AwsAccess.Key ≠ "" ∧ s.opts.AwsAccess.Secret ≠ "")) ∧
    (∀ p, LoadOption.WithCredentialsProvider p ∈ Send.options getenv s →
      p = { key := s.opts.AwsAccess.Key, secret := s.opts.AwsAccess.Secret,
            session := "default" }) ∧
    ((∃ region, LoadOption.WithRegion region ∈ Send.options getenv s) ↔
      s.opts.Region ≠ "") ∧
    (∀ region, LoadOption.WithRegion region ∈ Send.options getenv s →
      region = s.opts.Region) ∧
    ((s.opts ≠ AwsSqsOptions.zero ∧ s.opts.AwsAccess.Key ≠ "" ∧ s.opts.AwsAccess.Secret ≠ "") ↔
      (s.opts.AwsAccess.Key ≠ "" ∧ s.opts.AwsAccess.Secret ≠ "")) ∧
    Send.options getenv (NewAwsSqsService AwsSqsOptions.zero) = [] := by
  have hzero : s.opts.AwsAccess.Key ≠ "" → s.opts ≠ AwsSqsOptions.zero := by
    intro hk hz
    apply hk
    rw [hz]
    rfl
  have hguard : (s.opts ≠ AwsSqsOptions.zero ∧ s.opts.AwsAccess.Key ≠ "" ∧
      s.opts.AwsAccess.Secret ≠ "") ↔
      (s.opts.AwsAccess.Key ≠ "" ∧ s.opts.AwsAccess.Secret ≠ "") :=
    ⟨fun hc => hc.2, fun hc => ⟨hzero hc.1, hc⟩⟩
  refine ⟨Send_events_head sdk getenv s notification dest, ?_, ?_, ?_, ?_, hguard, ?_⟩
  · unfold Send.options
    simp only [hguard]
    by_cases hc : s.opts.AwsAccess.Key ≠ "" ∧ s.opts.AwsAccess.Secret ≠ "" <;>
      by_cases hr : s.opts.Region = "" <;> by_cases he : s.opts.EndpointUrl = "" <;>
      simp [hc, hr, he]
  · intro p
    unfold Send.options
    simp only [hguard]
    by_cases hc : s.opts.AwsAccess.Key ≠ "" ∧ s.opts.AwsAccess.Secret ≠ "" <;>
      by_cases hr : s.opts.Region = "" <;> by_cases he : s.opts.EndpointUrl = "" <;>
      simp [hc, hr, he]
  · unfold Send.options
    simp only [hguard]
    by_cases hc : s.opts.AwsAccess.Key ≠ "" ∧ s.opts.AwsAccess.Secret ≠ "" <;>
      by_cases hr : s.opts.Region = "" <;> by_cases he : s.opts.EndpointUrl = "" <;>
      simp [hc, hr, he]
  · intro region
    unfold Send.options
    simp only [hguard]
    by_cases hc : s.opts.AwsAccess.Key ≠ "" ∧ s.opts.AwsAccess.Secret ≠ "" <;>
      by_cases hr : s.opts.Region = "" <;> by_cases he : s.opts.EndpointUrl = "" <;>
      simp [hc, hr, he]
  · simp [Send.options, NewAwsSqsService, AwsSqsOptions.zero]

/-- C9: the options `Send` loads the configuration with hold an endpoint resolver exactly
when the configured endpoint URL is non-empty.  For every region asked, that resolver
answers the SQS service identifier with the configured URL and, as signing region, the
configured region when it is non-empty and `AWS_DEFAULT_REGION` otherwise; it answers
every other service identifier with the endpoint-not-found error. -/
theorem Send_endpoint_resolver :
    (Send sdk getenv s notification dest).events.head? =
      some (.LoadDefaultConfig (Send.options getenv s)) ∧
    ((∃ c, LoadOption.WithEndpointResolverWithOptions c ∈ Send.options getenv s) ↔
      s.opts.EndpointUrl ≠ "") ∧
    (∀ c, LoadOption.WithEndpointResolverWithOptions c ∈ Send.options getenv s →
      ∀ region : String,
        c.resolve sqs.ServiceID region =
          .ok { PartitionID := "aws", URL := s.opts.EndpointUrl,
                SigningRegion :=
                  if s.opts.Region ≠ "" then s.opts.Region
                  else getenv "AWS_DEFAULT_REGION" } ∧
        ∀ service, service ≠ sqs.ServiceID → c.resolve service region = .error {}) := by
  have hres : ∀ c, LoadOption.WithEndpointResolverWithOptions c ∈ Send.options getenv s →
      s.opts.EndpointUrl ≠ "" ∧
      c = { EndpointUrl := s.opts.EndpointUrl,
            endpointRegion :=
              if s.opts.Region ≠ "" then s.opts.Region else getenv "AWS_DEFAULT_REGION" } := by
    intro c
    unfold Send.options
    by_cases hc : s.opts ≠ AwsSqsOptions.zero ∧ s.opts.AwsAccess.Key ≠ "" ∧
        s.opts.AwsAccess.Secret ≠ "" <;>
      by_cases hr : s.opts.Region = "" <;> by_cases he : s.opts.EndpointUrl = "" <;>
      simp [hc, hr, he]
  refine ⟨Send_events_head sdk getenv s notification dest, ⟨?_, ?_⟩, ?_⟩
  · rintro ⟨c, hc⟩
    exact (hres c hc).1
  · intro he
    refine ⟨{ EndpointUrl := s.opts.EndpointUrl,
              endpointRegion :=
                if s.opts.Region ≠ "" then s.opts.Region
                else getenv "AWS_DEFAULT_REGION" }, ?_⟩
    unfold Send.options
    simp [he]
  · intro c hc region
    rw [(hres c hc).2]
    constructor
    · simp [CustomResolver.resolve]
    · intro service hne
      simp [CustomResolver.resolve, hne]

end SendClaims

/-- C2, on a destination with a recipient and a service with an account: the request
names the recipient and the account. -/
theorem Send_GetQueueUrl_request_witness :
    ∃ input,
      Event.GetQueueUrl input ∈
        (Send Test.sdk Test.getenv Test.service Test.rendered Test.dest).events ∧
      input.QueueName = some "overrides" ∧
      input.QueueOwnerAWSAccountId = some "123456789012" := by
  have key := Send_GetQueueUrl_request Test.sdk Test.getenv Test.service Test.rendered
    Test.dest
  obtain ⟨input, hmem⟩ := key.2 (Send.options Test.getenv Test.service) rfl
  exact ⟨input, hmem, (key.1 input hmem).1, (key.1 input hmem).2⟩

/-- The cases of `Send_outcome_cases` on four SDKs: one that loads no configuration, one
that finds no queue, one that fails to send and one whose reply carries an id. -/
theorem Send_outcome_cases_examples :
    (Send Test.sdkNoConfig Test.getenv Test.service Test.rendered Test.dest).calls = [] ∧
    (Send Test.sdkNoQueue Test.getenv Test.service Test.rendered Test.dest).outcome =
      .returned (some { msg := "no such queue" }) ∧
    (Send Test.sdkNoSend Test.getenv Test.service Test.rendered Test.dest).outcome =
      .returned (some { msg := "send refused" }) ∧
    (Send Test.sdk Test.getenv Test.service Test.rendered Test.dest).outcome =
      .returned none :=
  ⟨((Send_outcome_cases Test.sdkNoConfig Test.getenv Test.service Test.rendered Test.dest).1
      { msg := "no configuration" } rfl).2,
   ((Send_outcome_cases Test.sdkNoQueue Test.getenv Test.service Test.rendered Test.dest).2.1
      (Send.options Test.getenv Test.service) { msg := "no such queue" } rfl rfl).1,
   ((Send_outcome_cases Test.sdkNoSend Test.getenv Test.service Test.rendered
      Test.dest).2.2.1 (Send.options Test.getenv Test.service)
      { QueueUrl := some "http://sqs.test/overrides" } { msg := "send refused" }
      rfl (by decide) rfl).1,
   ((Send_outcome_cases Test.sdk Test.getenv Test.service Test.rendered
      Test.dest).2.2.2.1 (Send.options Test.getenv Test.service)
      { QueueUrl := some "http://sqs.test/overrides" } "id-1"
      rfl (by decide) rfl).1⟩

/-- C5: `Send` against an SDK whose `SendMessage` succeeds with a reply that carries no
message id.  The configuration loads, one `GetQueueUrl` and one `SendMessage` are made
without error, and the run ends in the dereference of the nil `resp.MessageId` at line
118 instead of returning nil.  Against the SDK whose reply carries an id the same run
returns nil. -/
theorem Send_panics_on_reply_without_id :
    (∃ resp, Test.sdkNoId.SendMessage (Send.options Test.getenv Test.service)
        (Send.sMInput (some "http://sqs.test/overrides") Test.rendered) = .ok resp) ∧
    (Send Test.sdkNoId Test.getenv Test.service Test.rendered Test.dest).outcome =
      .nilDereference ∧
    (Send Test.sdkNoId Test.getenv Test.service Test.rendered Test.dest).outcome ≠
      .returned none ∧
    (Send Test.sdkNoId Test.getenv Test.service Test.rendered Test.dest).calls =
      [.GetQueueUrl { QueueName := some "overrides",
                      QueueOwnerAWSAccountId := some "123456789012" },
       .SendMessage { QueueUrl := some "http://sqs.test/overrides",
                      MessageBody := some "abcdef",
                      DelaySeconds := 10,
                      MessageAttributes := none }] ∧
    (Send Test.sdk Test.getenv Test.service Test.rendered Test.dest).outcome =
      .returned none := by
  refine ⟨⟨{ MessageId := none }, rfl⟩, ?_, ?_, ?_, ?_⟩ <;> decide

/-- C7, on a run that reaches `SendMessage`: the request carries the resolved URL, the
message and the delay of 10 seconds. -/
theorem Send_SendMessage_request_witness :
    ∃ input,
      Event.SendMessage input ∈
        (Send Test.sdk Test.getenv Test.service Test.rendered Test.dest).events ∧
      input.QueueUrl = some "http://sqs.test/overrides" ∧
      input.MessageBody = some "abcdef" ∧
      input.DelaySeconds = 10 := by
  have key := Send_SendMessage_request Test.sdk Test.getenv Test.service Test.rendered
    Test.dest
  obtain ⟨input, hmem⟩ := key.2 (Send.options Test.getenv Test.service)
    { QueueUrl := some "http://sqs.test/overrides" } rfl (by decide)
  obtain ⟨client, result, tail, _, hq, _, hurl, hbody, hdelay⟩ := key.1 input hmem
  have hres : result = { QueueUrl := some "http://sqs.test/overrides" } := by
    have : (Except.ok result : Except GoError GetQueueUrlOutput) =
        Except.ok { QueueUrl := some "http://sqs.test/overrides" } := by
      rw [← hq]
      rfl
    exact Except.ok.inj this
  exact ⟨input, hmem, by rw [hurl, hres], hbody, hdelay⟩

/-- C8, on a service with a key and a secret and no region: the options hold the
credential provider and no region option. -/
theorem Send_load_options_witness :
    (∃ p, LoadOption.WithCredentialsProvider p ∈ Send.options Test.getenv Test.service) ∧
    ¬ (∃ region, LoadOption.WithRegion region ∈ Send.options Test.getenv Test.service) :=
  ⟨(Send_load_options Test.sdk Test.getenv Test.service Test.rendered Test.dest).2.1.mpr
      ⟨by decide, by decide⟩,
   fun hex =>
    ((Send_load_options Test.sdk Test.getenv Test.service Test.rendered
      Test.dest).2.2.2.1.mp hex) rfl⟩

/-- C9, on a service with an endpoint URL and no region: the resolver answers `SQS` with
that URL and the region of the environment, and refuses `S3`. -/
theorem Send_endpoint_resolver_witness :
    ∃ c, LoadOption.WithEndpointResolverWithOptions c ∈
        Send.options Test.getenv Test.service ∧
      c.resolve "SQS" "us-east-1" =
        .ok { PartitionID := "aws", URL := "http://127.0.0.1", SigningRegion := "eu-west-1" } ∧
      c.resolve "S3" "us-east-1" = .error {} := by
  have key := Send_endpoint_resolver Test.sdk Test.getenv Test.service Test.rendered Test.dest
  obtain ⟨c, hc⟩ := key.2.1.mpr (by decide)
  exact ⟨c, hc, (key.2.2 c hc "us-east-1").1,
    (key.2.2 c hc "us-east-1").2 "S3" (by decide)⟩

/-- C6: `Send` on the notification the templater of `TestGetTemplater_AwsSqs` leaves.  The
notification carries the attribute `attributeKey` with value `123456`; the two SQS calls
of the run are a `GetQueueUrl` and a `SendMessage` whose request has no message
attribute. -/
theorem Send_drops_message_attributes :
    Test.rendered.attributes Test.first.1 = [("attributeKey", "123456")] ∧
    (Send Test.sdk Test.getenv Test.service Test.rendered Test.dest).calls =
      [.GetQueueUrl { QueueName := some "overrides",
                      QueueOwnerAWSAccountId := some "123456789012" },
       .SendMessage { QueueUrl := some "http://sqs.test/overrides",
                      MessageBody := some "abcdef",
                      DelaySeconds := 10,
                      MessageAttributes := none }] := by
  decide

end AwsSqs
